import Mathlib

/-!
Shallow embedding of `src/media/js/script.js` (portfolio UI controller):
classList operations, the mobile-menu state machine, the smooth-scroll click
handler, the reveal observer, the scroll/parallax scheduler, the ripple
overlay, the contact-form submit handler, the tab trap and the typing effect.
-/

/-! ### DOMTokenList (classList) semantics -/

/-- `classList.contains c`. -/
def classListContains (l : List String) (c : String) : Bool := l.contains c

/-- `classList.add c`: no-op when the token is already present. -/
def classListAdd (l : List String) (c : String) : List String :=
  if l.contains c then l else l ++ [c]

/-- `classList.remove c`. -/
def classListRemove (l : List String) (c : String) : List String :=
  l.filter (fun x => x != c)

/-- `classList.toggle c` (no force argument): remove when present, add when absent. -/
def classListToggle (l : List String) (c : String) : List String :=
  if l.contains c then classListRemove l c else l ++ [c]

/-! ### Mobile menu (`initMobileMenu`, script.js lines 59-98) -/

/-- Observable DOM state touched by `initMobileMenu`: the class lists of the
`.nav-links` container and the `.mobile-menu` toggle, the toggle's
`aria-expanded` attribute value (an attribute the script could set via
`setAttribute`), and whether focus was moved to the toggle. -/
structure MenuState where
  navClasses : List String
  menuClasses : List String
  menuAriaExpanded : Option String
  focusOnMenuButton : Bool
  deriving DecidableEq

/-- The four event kinds routed to the menu handlers. -/
inductive MenuEvent where
  | toggleClick
  | linkClick (targetIsAnchorTag : Bool)
  | escapeKey
  | outsideClick (inNavLinks inMobileMenu : Bool)
  deriving DecidableEq

/-- `toggleMobileMenu` from the source: toggles `active` on both elements. -/
def toggleMobileMenu (s : MenuState) : MenuState :=
  { s with navClasses := classListToggle s.navClasses "active",
           menuClasses := classListToggle s.menuClasses "active" }

/-- `closeMobileMenu` from the source: removes `active` from both elements. -/
def closeMobileMenu (s : MenuState) : MenuState :=
  { s with navClasses := classListRemove s.navClasses "active",
           menuClasses := classListRemove s.menuClasses "active" }

/-- One menu-related event dispatch, following the four listeners installed by
`initMobileMenu`. -/
def menuStep (s : MenuState) : MenuEvent → MenuState
  | .toggleClick => toggleMobileMenu s
  | .linkClick isAnchor => if isAnchor then closeMobileMenu s else s
  | .escapeKey =>
      if classListContains s.navClasses "active" then
        { closeMobileMenu s with focusOnMenuButton := true }
      else s
  | .outsideClick inNav inMenu =>
      if !inNav && !inMenu && classListContains s.navClasses "active" then
        closeMobileMenu s
      else s

/-! ### Smooth scroll (`initSmoothScroll`, script.js lines 101-118) -/

/-- Effects of the delegated document click listener: whether
`e.preventDefault()` ran, and the scroll destination requested (if any). -/
structure ClickEffects where
  preventDefault : Bool
  scrollRequest : Option ℤ
  deriving DecidableEq

/-- The `initSmoothScroll` click handler. `matchesAnchor` is the result of
`e.target.matches('a[href^="#"]')`; `target` is `some top` when
`document.querySelector` finds the element (with `top` its
`getBoundingClientRect().top`), `none` otherwise. -/
def smoothScrollClick (matchesAnchor : Bool) (target : Option ℤ)
    (pageYOffset : ℤ) : ClickEffects :=
  if matchesAnchor then
    match target with
    | some elementPosition => ⟨true, some (elementPosition + pageYOffset - 80)⟩
    | none => ⟨true, none⟩
  else ⟨false, none⟩

/-! ### Ripple overlay (`initRippleEffect`, script.js lines 257-282) -/

/-- The inline style written onto the created `span.ripple`, plus the delay of
the removal timer. -/
structure RippleStyle where
  width : ℚ
  height : ℚ
  left : ℚ
  top : ℚ
  removeAfterMs : ℕ
  deriving DecidableEq

/-- The ripple click handler: `size = max(rect.width, rect.height)`,
`x = e.clientX - rect.left - size/2`, `y = e.clientY - rect.top - size/2`,
removal scheduled after 600ms. -/
def createRipple (rectLeft rectTop w h clientX clientY : ℚ) : RippleStyle :=
  let size := max w h
  let x := clientX - rectLeft - size / 2
  let y := clientY - rectTop - size / 2
  ⟨size, size, x, y, 600⟩

/-! ### Contact form (`initFormHandling`, script.js lines 188-223) -/

/-- The character class `\s` of a JavaScript regular expression
(ECMAScript WhiteSpace union LineTerminator). -/
def isJsSpace (c : Char) : Bool :=
  c.val = 9 || c.val = 10 || c.val = 11 || c.val = 12 || c.val = 13 ||
  c.val = 32 || c.val = 160 || c.val = 0x1680 ||
  (0x2000 ≤ c.val && c.val ≤ 0x200a) ||
  c.val = 0x2028 || c.val = 0x2029 || c.val = 0x202f || c.val = 0x205f ||
  c.val = 0x3000 || c.val = 0xfeff

/-- One `[^\s@]+` atom of the email pattern: nonempty, no whitespace, no `@`. -/
def emailAtomOk (l : List Char) : Bool :=
  !l.isEmpty && l.all (fun c => !isJsSpace c && c != '@')

/-- `emailRegex.test email` for `/^[^\s@]+@[^\s@]+\.[^\s@]+$/` (script.js line
207): the string splits as atom `@` atom `.` atom for some choice of the `@`
and `.` positions. -/
def emailRegexTest (s : String) : Bool :=
  let cs := s.data
  (List.range cs.length).any (fun i =>
    cs.get? i == some '@' && emailAtomOk (cs.take i) &&
    (let r := cs.drop (i + 1)
     (List.range r.length).any (fun j =>
       r.get? j == some '.' && emailAtomOk (r.take j) &&
       emailAtomOk (r.drop (j + 1)))))

/-- Outcome of the submit handler. -/
inductive SubmitOutcome where
  | missingField
  | invalidEmail
  | success (name email : String)
  deriving DecidableEq

/-- JavaScript falsiness of a `FormData.get` result: `null` or `""`. -/
def jsFalsyString : Option String → Bool
  | none => true
  | some s => s.isEmpty

/-- The submit listener (script.js lines 192-222): missing-field check via
`!name || !email || !message` (no trimming), then the email regex, then
success. -/
def submitHandler (name email message : Option String) : SubmitOutcome :=
  if jsFalsyString name || jsFalsyString email || jsFalsyString message then
    .missingField
  else if !emailRegexTest (email.getD "") then .invalidEmail
  else .success (name.getD "") (email.getD "")

/-- The `alert` message shown for each outcome (script.js lines 202, 209, 214). -/
def alertMessage : SubmitOutcome → String
  | .missingField => "Vul alle velden in."
  | .invalidEmail => "Voer een geldig e-mailadres in."
  | .success n e =>
      "Dank je wel " ++ n ++
      "! Je bericht is ontvangen. Ik neem zo spoedig mogelijk contact met je op via " ++
      e ++ "."

/-- `e.target.reset()` runs only on the success path (script.js line 217). -/
def didReset : SubmitOutcome → Bool
  | .success _ _ => true
  | _ => false

/-- Field values after the handler returns: reset to empty on success,
untouched otherwise. -/
def formAfter (name email message : String) (o : SubmitOutcome) :
    String × String × String :=
  if didReset o then ("", "", "") else (name, email, message)

/-! ### Substring search (used to state facts about the alert message) -/

/-- `pat` occurs as a contiguous substring of the second list. -/
def hasSubstr (pat : List Char) : List Char → Bool
  | [] => pat.isEmpty
  | c :: rest => pat.isPrefixOf (c :: rest) || hasSubstr pat rest

/-! ### Reveal observer (`initScrollAnimations`, script.js lines 121-143)

Elements are identified by natural numbers. The state tracks the observer's
target set, each element's class list, and — for stating the one-shot
property — a counter of effective class additions (calls of `classList.add`
that actually changed the class list, i.e. the transitions that trigger the
reveal animation). -/

/-- Observer + DOM state for the reveal feature. -/
structure RevealState where
  observed : Finset ℕ
  classes : ℕ → List String
  effectiveAdds : ℕ → ℕ

/-- One `IntersectionObserverEntry`. -/
structure IntersectionRecord where
  target : ℕ
  isIntersecting : Bool

/-- Processing of one entry by the observer callback: when intersecting, add
`visible` to the target's class list and `observer.unobserve(entry.target)`. -/
def revealStep (s : RevealState) (e : IntersectionRecord) : RevealState :=
  if e.isIntersecting then
    { observed := s.observed.erase e.target,
      classes := fun el =>
        if el = e.target then classListAdd (s.classes el) "visible"
        else s.classes el,
      effectiveAdds := fun el =>
        if el = e.target ∧ classListContains (s.classes el) "visible" = false
        then s.effectiveAdds el + 1
        else s.effectiveAdds el }
  else s

/-- Processing of a whole stream of delivered entries. -/
def revealRun (s : RevealState) (es : List IntersectionRecord) : RevealState :=
  es.foldl revealStep s

/-! ### Scroll scheduler (`initScrollEffects` lines 146-173, `throttle` lines 33-42)

`ticking` is the script's pending-frame variable; `framePending` records
whether a `requestAnimationFrame` callback is queued in the browser;
`throttleUntil` models the `inThrottle` variable of `throttle` (set for 16ms
after each actual run of `scrollHandler`, cleared by its `setTimeout`);
`updates` counts executions of the visual update `scrollHandler`. -/

/-- State of the scroll-effects feature. -/
structure ScrollState where
  ticking : Bool
  throttleUntil : Option ℕ
  framePending : Bool
  updates : ℕ
  deriving DecidableEq

/-- Timed events: a `scroll` event at time `t`, or the firing at time `t` of
the queued animation-frame callback. -/
inductive ScrollEvent where
  | scroll (t : ℕ)
  | frame (t : ℕ)
  deriving DecidableEq

/-- The `inThrottle` flag of `throttle` as seen at time `t`. -/
def inThrottleAt (s : ScrollState) (t : ℕ) : Bool :=
  match s.throttleUntil with
  | none => false
  | some u => decide (t < u)

/-- One step: the scroll listener schedules a frame only when `!ticking`; the
frame callback is `throttle(scrollHandler, 16)`, so it runs `scrollHandler`
(which clears `ticking`, updates the DOM and rearms the throttle) only when
the throttle window is closed. -/
def scrollStep (s : ScrollState) : ScrollEvent → ScrollState
  | .scroll _ =>
      if s.ticking then s
      else { s with framePending := true, ticking := true }
  | .frame t =>
      if s.framePending then
        if inThrottleAt s t then { s with framePending := false }
        else { ticking := false, throttleUntil := some (t + 16),
               framePending := false, updates := s.updates + 1 }
      else s

/-- Run a timed event trace. -/
def scrollRun (s : ScrollState) (es : List ScrollEvent) : ScrollState :=
  es.foldl scrollStep s

/-- State right after `initScrollEffects` registers the listener. -/
def scrollInit : ScrollState := ⟨false, none, false, 0⟩

/-! ### Tab trap (`initAccessibility`, script.js lines 374-388) -/

/-- The keydown listener for `Tab` while the menu is open. Links are element
identifiers; the result is the element receiving focus via
`preventDefault` + `focus()`, or `none` when the browser default proceeds. -/
def tabTrapHandler (navActive shiftKey : Bool) (links : List ℕ)
    (activeElement : ℕ) : Option ℕ :=
  if navActive then
    let firstFocusable := links.head?
    let lastFocusable := links.getLast?
    if shiftKey && (some activeElement == firstFocusable) then lastFocusable
    else if !shiftKey && (some activeElement == lastFocusable) then
      firstFocusable
    else none
  else none

/-! ### Typing effect (`initTypingEffect`, script.js lines 226-254) -/

/-- The `'<br>'` marker searched by `originalText.replace('<br>', '\n')`. -/
def brMarker : List Char := ['<', 'b', 'r', '>']

/-- JavaScript `String.prototype.replace` with a string pattern: replaces only
the first (leftmost) occurrence. -/
def replaceFirst (pat repl : List Char) : List Char → List Char
  | [] => []
  | c :: rest =>
      if pat.isPrefixOf (c :: rest) then repl ++ (c :: rest).drop pat.length
      else c :: replaceFirst pat repl rest

/-- `const text = originalText.replace('<br>', '\n')` (script.js line 230). -/
def typingText (originalText : List Char) : List Char :=
  replaceFirst brMarker ['\n'] originalText

/-- What one `type()` tick appends to `innerHTML` for the character at the
cursor: `'<br>'` for `'\n'`, the character itself otherwise. -/
def typeStep (c : Char) : List Char :=
  if c = '\n' then brMarker else [c]

/-- The sequence of appends performed by the full typing run. -/
def typeSteps (text : List Char) : List (List Char) :=
  text.map typeStep


/-! ## Claim theorems -/

/-- C1 counterexample: clicking an in-page anchor link whose target identifier
matches no element still calls `preventDefault` (the handler calls it before
the `querySelector` lookup), so the default jump IS suppressed, contrary to
the claim that the feature falls through to default browser behavior. -/
theorem smooth_scroll_missing_target_counterexample :
    ¬ ((smoothScrollClick true none 0).preventDefault = false) := by decide

/-- C1 (amended): for every click on an anchor-style in-page link whose target
identifier matches no element, no scroll is requested, but the default
navigation is suppressed (`preventDefault` runs unconditionally for matching
anchors, before the target lookup). -/
theorem smooth_scroll_missing_target (pageYOffset : ℤ) :
    smoothScrollClick true none pageYOffset = ⟨true, none⟩ := rfl

/-- C2 counterexample: a message consisting only of whitespace is NOT treated
as missing — the submission succeeds and the form is reset, contrary to the
claim that any field empty after trimming fails validation. -/
theorem form_whitespace_counterexample :
    submitHandler (some "Jan") (some "jan@example.com") (some " ") =
      .success "Jan" "jan@example.com" ∧
    didReset (submitHandler (some "Jan") (some "jan@example.com") (some " ")) =
      true := by decide

/-- C2 (amended): for every form submission in which any of name, email or
message is absent or the empty string (no trimming is applied, so a field of
only whitespace is not treated as missing), validation fails with the
missing-field outcome, the message "Vul alle velden in." is shown, and no
reset occurs. -/
theorem form_missing_field (name email message : Option String)
    (h : jsFalsyString name = true ∨ jsFalsyString email = true ∨
         jsFalsyString message = true) :
    submitHandler name email message = .missingField ∧
    alertMessage (submitHandler name email message) = "Vul alle velden in." ∧
    didReset (submitHandler name email message) = false := by
  have hc : (jsFalsyString name || jsFalsyString email ||
      jsFalsyString message) = true := by
    rcases h with h | h | h <;> simp [h]
  refine ⟨?_, ?_, ?_⟩ <;> simp [submitHandler, hc, alertMessage, didReset]

/-- Witness for C2's amended theorem at a concrete empty-message submission. -/
theorem form_missing_field_witness :
    submitHandler (some "Jan") (some "a@b.co") (some "") = .missingField ∧
    alertMessage (submitHandler (some "Jan") (some "a@b.co") (some "")) =
      "Vul alle velden in." ∧
    didReset (submitHandler (some "Jan") (some "a@b.co") (some "")) = false :=
  form_missing_field (some "Jan") (some "a@b.co") (some "")
    (Or.inr (Or.inr (by decide)))

/-- C3: the code violates the claim. After the trace scroll@0, frame@10,
scroll@11, frame@18 (the second frame fires inside the 16ms throttle window
opened at time 10, so the throttled callback skips `scrollHandler` and never
clears `ticking`), the feature is wedged: only one visual update ever ran and
NO further event — in particular no later scroll event — can ever change the
state or schedule a new update, contrary to the claim that after any frame
callback completes a subsequent scroll event can always schedule an update. -/
theorem scroll_ticking_wedged :
    scrollRun scrollInit [.scroll 0, .frame 10, .scroll 11, .frame 18] =
      ⟨true, some 26, false, 1⟩ ∧
    (∀ es : List ScrollEvent,
      scrollRun ⟨true, some 26, false, 1⟩ es = ⟨true, some 26, false, 1⟩) := by
  constructor
  · decide
  · intro es
    induction es with
    | nil => rfl
    | cons e es ih =>
        have hstep : scrollStep ⟨true, some 26, false, 1⟩ e =
            ⟨true, some 26, false, 1⟩ := by cases e <;> rfl
        simpa [scrollRun, hstep] using ih

/-- C4 counterexample: the toggle-click transition from the closed state
toggles the presentation class on the menu container but leaves the toggle
control's `aria-expanded` attribute untouched (the script never calls
`setAttribute`), contrary to the claim that every transition also updates an
accessibility "expanded" attribute. -/
theorem menu_no_aria_counterexample :
    (menuStep ⟨[], [], none, false⟩ .toggleClick).navClasses = ["active"] ∧
    (menuStep ⟨[], [], none, false⟩ .toggleClick).menuAriaExpanded = none := by
  decide

/-- C4 (amended): every navigation-menu state transition toggles (or removes)
the `active` presentation class on both the menu container and the toggle
control, but NO accessibility "expanded" attribute is updated — the toggle's
`aria-expanded` value is unchanged by every event. -/
theorem menu_transitions_no_aria (s : MenuState) (e : MenuEvent) :
    (menuStep s e).menuAriaExpanded = s.menuAriaExpanded ∧
    (menuStep s .toggleClick).navClasses = classListToggle s.navClasses "active" ∧
    (menuStep s .toggleClick).menuClasses = classListToggle s.menuClasses "active" ∧
    (menuStep s (.linkClick true)).navClasses = classListRemove s.navClasses "active" ∧
    (menuStep s (.linkClick true)).menuClasses = classListRemove s.menuClasses "active" ∧
    (classListContains s.navClasses "active" = true →
      (menuStep s .escapeKey).navClasses = classListRemove s.navClasses "active" ∧
      (menuStep s .escapeKey).menuClasses = classListRemove s.menuClasses "active" ∧
      (menuStep s (.outsideClick false false)).navClasses =
        classListRemove s.navClasses "active" ∧
      (menuStep s (.outsideClick false false)).menuClasses =
        classListRemove s.menuClasses "active") := by
  refine ⟨?_, rfl, rfl, rfl, rfl, ?_⟩
  · cases e with
    | toggleClick => rfl
    | linkClick b => simp only [menuStep]; split <;> rfl
    | escapeKey => simp only [menuStep]; split <;> rfl
    | outsideClick a b => simp only [menuStep]; split <;> rfl
  · intro h
    refine ⟨?_, ?_, ?_, ?_⟩ <;> simp [menuStep, closeMobileMenu, h]

/-- Witness for C4's amended theorem: the escape-key transition from an open
menu removes the class and leaves the aria attribute unchanged. -/
theorem menu_transitions_no_aria_witness :
    (menuStep ⟨["active"], ["active"], none, false⟩ .escapeKey).menuAriaExpanded =
      none ∧
    (menuStep ⟨["active"], ["active"], none, false⟩ .escapeKey).navClasses =
      classListRemove ["active"] "active" := by
  have h := menu_transitions_no_aria ⟨["active"], ["active"], none, false⟩
    .escapeKey
  exact ⟨h.1, (h.2.2.2.2.2 (by decide)).1⟩

/-- C5: the ripple overlay's width and height both equal `max w h`, its center
(`left + width/2`, `top + height/2`) falls exactly at the click offset
relative to the control's bounding box, and removal is scheduled after 600ms;
in particular a 40×20 control clicked at offset (10,5) yields a 40×40 overlay
at inline position (-10,-15), whose center is (10,5). -/
theorem ripple_overlay_geometry (rectLeft rectTop w h clientX clientY : ℚ) :
    (createRipple rectLeft rectTop w h clientX clientY).width = max w h ∧
    (createRipple rectLeft rectTop w h clientX clientY).height = max w h ∧
    (createRipple rectLeft rectTop w h clientX clientY).left +
      (createRipple rectLeft rectTop w h clientX clientY).width / 2 =
        clientX - rectLeft ∧
    (createRipple rectLeft rectTop w h clientX clientY).top +
      (createRipple rectLeft rectTop w h clientX clientY).height / 2 =
        clientY - rectTop ∧
    (createRipple rectLeft rectTop w h clientX clientY).removeAfterMs = 600 ∧
    createRipple 0 0 40 20 10 5 = ⟨40, 40, -10, -15, 600⟩ := by
  refine ⟨rfl, rfl, ?_, ?_, rfl, ?_⟩
  · simp only [createRipple]; ring
  · simp only [createRipple]; ring
  · simp only [createRipple, RippleStyle.mk.injEq]
    norm_num [max_def]

/-- C7: while the menu is open, a forward tab press with focus on the last
menu link moves focus to the first link, and a shift-tab with focus on the
first link moves focus to the last link. -/
theorem tab_trap_wraps (links : List ℕ) (f l : ℕ)
    (hf : links.head? = some f) (hl : links.getLast? = some l) :
    tabTrapHandler true false links l = some f ∧
    tabTrapHandler true true links f = some l := by
  constructor <;> simp [tabTrapHandler, hf, hl]

/-- Witness for C7 on the concrete three-link menu `[1, 2, 3]`. -/
theorem tab_trap_wraps_witness :
    tabTrapHandler true false [1, 2, 3] 3 = some 1 ∧
    tabTrapHandler true true [1, 2, 3] 1 = some 3 :=
  tab_trap_wraps [1, 2, 3] 1 3 (by decide) (by decide)

/-- C8: the email regex accepts "a@b.co" and rejects "not-an-email" (with the
invalid-email outcome when the other fields are filled), and an empty name or
empty message always yields the missing-field outcome regardless of the
email. -/
theorem email_validation_cases :
    submitHandler (some "x") (some "a@b.co") (some "y") = .success "x" "a@b.co" ∧
    submitHandler (some "x") (some "not-an-email") (some "y") = .invalidEmail ∧
    emailRegexTest "a@b.co" = true ∧
    emailRegexTest "not-an-email" = false ∧
    (∀ email message : Option String,
      submitHandler (some "") email message = .missingField) ∧
    (∀ name email : Option String,
      submitHandler name email (some "") = .missingField) := by
  have hempty : jsFalsyString (some "") = true := by decide
  refine ⟨by decide, by decide, by decide, by decide, ?_, ?_⟩
  · intro email message; simp [submitHandler, hempty]
  · intro name email; simp [submitHandler, hempty]

/-- C9: the valid submission {Jan, jan@example.com, Hallo} succeeds, the
acknowledgment message contains both "Jan" and "jan@example.com" as
substrings, and afterwards all three form fields are reset to empty. -/
theorem form_valid_submission_ack :
    submitHandler (some "Jan") (some "jan@example.com") (some "Hallo") =
      .success "Jan" "jan@example.com" ∧
    hasSubstr "Jan".data
      (alertMessage (submitHandler (some "Jan") (some "jan@example.com")
        (some "Hallo"))).data = true ∧
    hasSubstr "jan@example.com".data
      (alertMessage (submitHandler (some "Jan") (some "jan@example.com")
        (some "Hallo"))).data = true ∧
    formAfter "Jan" "jan@example.com" "Hallo"
      (submitHandler (some "Jan") (some "jan@example.com") (some "Hallo")) =
      ("", "", "") := by
  refine ⟨by decide, by decide, by decide, by decide⟩

/-! ## Helper lemmas for the reveal observer -/

/-- After `classList.add c`, the list contains `c`. -/
theorem classListAdd_contains_self (l : List String) (c : String) :
    classListContains (classListAdd l c) c = true := by
  unfold classListAdd classListContains
  split
  · assumption
  · simp

/-- `classList.add c` preserves membership of any token. -/
theorem classListAdd_contains_mono (l : List String) (c d : String)
    (h : classListContains l d = true) :
    classListContains (classListAdd l c) d = true := by
  unfold classListContains at h
  unfold classListAdd classListContains
  split
  · exact h
  · simp_all

/-- Invariant for element `el`: the effective-add counter is at most one, and
once positive the `visible` class is present. -/
def RevealInv (el : ℕ) (s : RevealState) : Prop :=
  s.effectiveAdds el ≤ 1 ∧
  (1 ≤ s.effectiveAdds el →
    classListContains (s.classes el) "visible" = true)

theorem revealStep_inv (el : ℕ) (s : RevealState) (e : IntersectionRecord)
    (h : RevealInv el s) : RevealInv el (revealStep s e) := by
  obtain ⟨h1, h2⟩ := h
  unfold RevealInv revealStep
  by_cases hint : e.isIntersecting = true
  · simp only [hint, if_true]
    by_cases htgt : el = e.target
    · subst htgt
      cases hvis : classListContains (s.classes e.target) "visible" with
      | true =>
          constructor
          · simp [hvis, h1]
          · intro _
            simp only [if_pos rfl]
            exact classListAdd_contains_mono _ _ _ hvis
      | false =>
          have h0 : s.effectiveAdds e.target = 0 := by
            by_contra hne
            rw [h2 (Nat.one_le_iff_ne_zero.mpr hne)] at hvis
            exact Bool.noConfusion hvis
          constructor
          · simp [hvis, h0]
          · intro _
            simp only [if_pos rfl]
            exact classListAdd_contains_self _ _
    · constructor
      · simp [htgt, h1]
      · intro hge
        simp only [if_neg htgt]
        refine h2 ?_
        simpa [htgt] using hge
  · constructor
    · simp [hint, h1]
    · simp only [if_neg hint]
      exact h2

theorem revealRun_inv (el : ℕ) (es : List IntersectionRecord) :
    ∀ s : RevealState, RevealInv el s → RevealInv el (revealRun s es) := by
  induction es with
  | nil => intro s h; exact h
  | cons e es ih => intro s h; exact ih _ (revealStep_inv el s e h)

/-- A step never re-observes an element. -/
theorem revealStep_observed_subset (s : RevealState) (e : IntersectionRecord)
    (el : ℕ) (h : el ∉ s.observed) : el ∉ (revealStep s e).observed := by
  unfold revealStep
  split
  · simp only
    intro hmem
    exact h (Finset.mem_of_mem_erase hmem)
  · exact h

theorem revealRun_observed_subset (el : ℕ) (es : List IntersectionRecord) :
    ∀ s : RevealState, el ∉ s.observed → el ∉ (revealRun s es).observed := by
  induction es with
  | nil => intro s h; exact h
  | cons e es ih => intro s h; exact ih _ (revealStep_observed_subset s e el h)

/-- Once a qualifying (intersecting) entry for `el` is processed, `el` is out
of the observer's target set for good. -/
theorem revealRun_unobserved_of_qualifying (el : ℕ)
    (es : List IntersectionRecord) :
    ∀ s : RevealState,
      (∃ e ∈ es, e.target = el ∧ e.isIntersecting = true) →
      el ∉ (revealRun s es).observed := by
  induction es with
  | nil => intro s h; simp at h
  | cons e es ih =>
      intro s h
      obtain ⟨e', he', htgt, hint⟩ := h
      rcases List.mem_cons.mp he' with rfl | hmem
      · have hobs : el ∉ (revealStep s e').observed := by
          unfold revealStep
          rw [if_pos hint]
          simp only [htgt]
          exact Finset.not_mem_erase el _
        exact revealRun_observed_subset el es _ hobs
      · exact ih (revealStep s e) ⟨e', hmem, htgt, hint⟩

/-- C6: for every element registered with the reveal observer (no `visible`
class and a zero effective-add count initially), any stream of delivered
intersection entries causes at most one effective application of the
`visible` class, and as soon as a qualifying intersection for the element is
processed the element is permanently out of the observed set. -/
theorem reveal_class_applied_once (s0 : RevealState) (el : ℕ)
    (es : List IntersectionRecord)
    (h0 : s0.effectiveAdds el = 0)
    (_hvis : classListContains (s0.classes el) "visible" = false) :
    (revealRun s0 es).effectiveAdds el ≤ 1 ∧
    ((∃ e ∈ es, e.target = el ∧ e.isIntersecting = true) →
      el ∉ (revealRun s0 es).observed) := by
  constructor
  · have hinv : RevealInv el s0 := by
      constructor
      · omega
      · intro hge
        rw [h0] at hge
        exact absurd hge (by norm_num)
    exact (revealRun_inv el es s0 hinv).1
  · intro hex
    exact revealRun_unobserved_of_qualifying el es s0 hex

/-- Witness for C6: a single element observed, hit by two intersecting
entries. -/
theorem reveal_class_applied_once_witness :
    (revealRun ⟨{5}, fun _ => [], fun _ => 0⟩
      [⟨5, true⟩, ⟨5, true⟩]).effectiveAdds 5 ≤ 1 ∧
    5 ∉ (revealRun ⟨{5}, fun _ => [], fun _ => 0⟩
      [⟨5, true⟩, ⟨5, true⟩]).observed := by
  have h := reveal_class_applied_once ⟨{5}, fun _ => [], fun _ => 0⟩ 5
    [⟨5, true⟩, ⟨5, true⟩] rfl rfl
  exact ⟨h.1, h.2 ⟨⟨5, true⟩, by simp, rfl, rfl⟩⟩

/-! ## Helper lemmas for the typing effect -/

theorem brMarker_isPrefixOf_marker (b : List Char) :
    brMarker.isPrefixOf (brMarker ++ b) = true := by
  simp [brMarker, List.isPrefixOf]

/-- `'<br>'` has no border, so it cannot start inside a nonempty chunk that
does not contain it. -/
theorem brMarker_not_prefixOf (a b : List Char) (hne : a ≠ [])
    (ha : hasSubstr brMarker a = false) :
    brMarker.isPrefixOf (a ++ (brMarker ++ b)) = false := by
  match a with
  | [] => exact absurd rfl hne
  | [c] => simp [brMarker, List.isPrefixOf]
  | [c, d] => simp [brMarker, List.isPrefixOf]
  | [c, d, e] => simp [brMarker, List.isPrefixOf]
  | c :: d :: e :: f :: rest =>
      have ha' : brMarker.isPrefixOf (c :: d :: e :: f :: rest) = false := by
        unfold hasSubstr at ha
        exact (Bool.or_eq_false_iff.mp ha).1
      simp only [brMarker, List.isPrefixOf, List.cons_append] at ha' ⊢
      simpa using ha'

theorem replaceFirst_at_marker (b : List Char) :
    replaceFirst brMarker ['\n'] (brMarker ++ b) = '\n' :: b := by
  show replaceFirst brMarker ['\n'] ('<' :: ('b' :: 'r' :: '>' :: b)) = _
  simp [replaceFirst, brMarker, List.isPrefixOf]

/-- `replace('<br>', '\n')` rewrites exactly the first occurrence: with `a`
free of the marker, `a ++ '<br>' ++ b` becomes `a ++ '\n' ++ b`. -/
theorem replaceFirst_marker_split (b : List Char) :
    ∀ a : List Char, hasSubstr brMarker a = false →
      replaceFirst brMarker ['\n'] (a ++ (brMarker ++ b)) = a ++ '\n' :: b := by
  intro a
  induction a with
  | nil => intro _; simpa using replaceFirst_at_marker b
  | cons c a ih =>
      intro ha
      have hfalse : brMarker.isPrefixOf ((c :: a) ++ (brMarker ++ b)) = false :=
        brMarker_not_prefixOf (c :: a) b (by simp) ha
      have ha' : hasSubstr brMarker a = false := by
        unfold hasSubstr at ha
        exact (Bool.or_eq_false_iff.mp ha).2
      show replaceFirst brMarker ['\n'] (c :: (a ++ (brMarker ++ b))) = _
      rw [replaceFirst]
      simp only [List.cons_append] at hfalse
      rw [if_neg (by rw [hfalse]; exact Bool.noConfusion)]
      rw [ih ha']
      rfl

/-- C10: for every hero-title content, only the first `'<br>'` marker is
converted into a real line break by `replace('<br>', '\n')`: the typing run
appends a single `'<br>'` chunk for the converted first marker, while every
later `'<br>'` occurrence survives in the text verbatim and is appended one
character at a time as the four characters `'<'`, `'b'`, `'r'`, `'>'`. -/
theorem typing_first_marker_only (a c d : List Char)
    (ha : hasSubstr brMarker a = false) :
    typingText (a ++ brMarker ++ (c ++ brMarker ++ d)) =
      a ++ '\n' :: (c ++ brMarker ++ d) ∧
    typeSteps (typingText (a ++ brMarker ++ (c ++ brMarker ++ d))) =
      typeSteps a ++ [brMarker] ++
        (typeSteps c ++ [['<'], ['b'], ['r'], ['>']] ++ typeSteps d) := by
  have h1 : typingText (a ++ brMarker ++ (c ++ brMarker ++ d)) =
      a ++ '\n' :: (c ++ brMarker ++ d) := by
    have h := replaceFirst_marker_split (c ++ brMarker ++ d) a ha
    simpa [typingText, List.append_assoc] using h
  refine ⟨h1, ?_⟩
  rw [h1]
  simp [typeSteps, typeStep, brMarker]

/-- Witness for C10: the content `H<br>X<br>Y`. -/
theorem typing_first_marker_only_witness :
    typingText (['H'] ++ brMarker ++ (['X'] ++ brMarker ++ ['Y'])) =
      ['H'] ++ '\n' :: (['X'] ++ brMarker ++ ['Y']) ∧
    typeSteps (typingText (['H'] ++ brMarker ++ (['X'] ++ brMarker ++ ['Y']))) =
      typeSteps ['H'] ++ [brMarker] ++
        (typeSteps ['X'] ++ [['<'], ['b'], ['r'], ['>']] ++ typeSteps ['Y']) :=
  typing_first_marker_only ['H'] ['X'] ['Y'] (by decide)
